import Mathlib

/-!
# Verification of the EPSS enrichment pipeline (`epss-enrich.go`)

Shallow embedding of the pipeline stages of `src/epss-enrich.go`:

* `LoadEpssData` — the score-feed parser (skip metadata line, CSV rows,
  decimal parsing, the final `epss_list[2:]` slice);
* `CreateFindingsRaw` — the findings extractor over the listing response
  (skip index 0, GHSA alias re-extraction, per-record fatal errors);
* `EnrichFindingData` — the join of findings with the score map
  (Go map build with last-write-wins, `%.5f` payload fields);
* `PatchFindingData` — the update dispatcher (one PUT per record, in
  order, non-200 reported and loop continues);
* `main`'s flag setup — `flag.String`/`flag.Int` pointers dereferenced at
  registration time, with `flag.Parse` never invoked.

Go's abort modes are made explicit: `log.Fatal` (process exit) and
runtime panics (index/slice out of range) are distinguished, since the
program's error behaviour differs between them.  Fallible stages return
`Except GoAbort`.  Numeric values are modelled as exact scaled decimals
(`Dec`, an integer mantissa with a base-10 exponent): the feed's decimal
fields are short enough that `float64` represents them with no observable
rounding at the 5-decimal precision the pipeline prints, so no
floating-point behaviour is visible at this level.
-/

/-- How a run of the Go program can abort: `log.Fatal` (used on every
parse/network error) versus a runtime panic (index or slice out of
range).  Both terminate the process, but the claims distinguish them. -/
inductive GoAbort where
  | fatal (msg : String)
  | panicked (msg : String)
deriving DecidableEq, Repr

instance {ε α : Type} [DecidableEq ε] [DecidableEq α] : DecidableEq (Except ε α) := fun a b =>
  match a, b with
  | .error e, .error f =>
    if h : e = f then isTrue (by rw [h]) else isFalse (fun hh => h (Except.error.inj hh))
  | .error _, .ok _ => isFalse (fun h => Except.noConfusion h)
  | .ok _, .error _ => isFalse (fun h => Except.noConfusion h)
  | .ok x, .ok y =>
    if h : x = y then isTrue (by rw [h]) else isFalse (fun hh => h (Except.ok.inj hh))

/-! ## Character-level string utilities

The Go code uses `strings.Index(s, "\n")`, comma/newline splitting via
`encoding/csv`, and `strings.Contains`.  These are modelled structurally
on `List Char` so that every definition reduces in the kernel. -/

/-- Split a character list at every occurrence of `c` (the semantics of
splitting a string on a one-character separator). -/
def splitOnChar (c : Char) : List Char → List (List Char)
  | [] => [[]]
  | x :: xs =>
    let r := splitOnChar c xs
    if x = c then [] :: r
    else
      match r with
      | y :: ys => (x :: y) :: ys
      | [] => [[x]]

/-- `leadMatch p s` is true when `p` occurs at the front of `s`. -/
def leadMatch : List Char → List Char → Bool
  | [], _ => true
  | _ :: _, [] => false
  | p :: ps, c :: cs => p = c && leadMatch ps cs

/-- `containsSub p s` is true when `p` occurs contiguously anywhere in
`s` — the semantics of Go's `strings.Contains`. -/
def containsSub (p : List Char) : List Char → Bool
  | [] => p.isEmpty
  | c :: cs => leadMatch p (c :: cs) || containsSub p cs

/-- `strings.Contains(s, "GHSA")` from `CreateFindingsRaw` (src line 70):
the advisory-alias test applied to an extracted identifier. -/
def containsGHSA (s : String) : Bool :=
  containsSub "GHSA".data s.data

/-! ## Decimal parsing (`strconv.ParseFloat` on feed fields)

The feed's numeric fields are plain decimal fractions; `ParseFloat` is
modelled on that input class, returning the exact rational value (or
`none` where `ParseFloat` errors, e.g. on the column-header words). -/

/-- An exact scaled decimal: the value `mant / 10 ^ exp`.  This models
the `float64` a feed field parses to; the feed's fields carry at most a
handful of decimal digits, for which this representation is exact. -/
structure Dec where
  mant : Int
  exp : Nat
deriving DecidableEq, Repr

/-- The rational value of a scaled decimal (specification view). -/
def Dec.val (d : Dec) : ℚ :=
  (d.mant : ℚ) / (10 : ℚ) ^ d.exp

/-- Value of a non-empty all-digit character list, `none` otherwise. -/
def natOfDigits : List Char → Option Nat
  | [] => none
  | ds =>
    if ds.all Char.isDigit then
      some (ds.foldl (fun a c => a * 10 + (c.toNat - 48)) 0)
    else none

/-- `strconv.ParseFloat` on a plain decimal string (optional sign,
integer part, optional fractional part), as an exact scaled decimal. -/
def parseDecimal (s : String) : Option Dec :=
  let (neg, body) :=
    match s.data with
    | '-' :: cs => (true, cs)
    | '+' :: cs => (false, cs)
    | cs => (false, cs)
  let mag : Option Dec :=
    match splitOnChar '.' body with
    | [ip] => (natOfDigits ip).map (fun n => { mant := (n : Int), exp := 0 })
    | [ip, fp] =>
      match natOfDigits ip, natOfDigits fp with
      | some n, some f =>
        some { mant := (n : Int) * (10 : Int) ^ fp.length + (f : Int), exp := fp.length }
      | _, _ => none
    | _ => none
  mag.map (fun d => if neg then { d with mant := -d.mant } else d)

/-! ## ScoreFeedParser: `LoadEpssData` (src lines 201–259) -/

/-- One parsed feed row (`epss_data` struct, src lines 32–36). -/
structure epss_data where
  cve : String
  score : Dec
  percentile : Dec
deriving DecidableEq, Repr

/-- Build one `epss_data` from one CSV record (src lines 239–253):
`record[0]` is the identifier; `record[1]`/`record[2]` go through
`ParseFloat` and any parse error is `log.Fatal`.  Accessing a missing
index is a runtime panic (possible only on the first record, since the
CSV reader enforces a uniform field count afterwards). -/
def parseEpssRow (fields : List String) : Except GoAbort epss_data :=
  match fields with
  | c :: s1 :: s2 :: _ =>
    match parseDecimal s1 with
    | none => .error (.fatal "ParseFloat")
    | some sc =>
      match parseDecimal s2 with
      | none => .error (.fatal "ParseFloat")
      | some pc => .ok { cve := c, score := sc, percentile := pc }
  | _ => .error (.panicked "index out of range")

/-- The CSV read loop (src lines 230–254): records in order; the reader
fixes the expected field count from the first record and errors (hence
`log.Fatal`) on any record with a different count. -/
def readEpssRows : Option Nat → List (List String) → Except GoAbort (List epss_data)
  | _, [] => .ok []
  | expected, r :: rs =>
    match expected with
    | some n =>
      if r.length ≠ n then .error (.fatal "csv: wrong number of fields")
      else
        match parseEpssRow r with
        | .error e => .error e
        | .ok d =>
          match readEpssRows (some n) rs with
          | .error e => .error e
          | .ok ds => .ok (d :: ds)
    | none =>
      match parseEpssRow r with
      | .error e => .error e
      | .ok d =>
        match readEpssRows (some r.length) rs with
        | .error e => .error e
        | .ok ds => .ok (d :: ds)

/-- The feed text split into CSV records after the metadata line is
stripped: `strings.Index(s, "\n")` drops everything up to and including
the first newline (src lines 218–222), and `encoding/csv` then yields
one record per non-blank line, fields separated by commas. -/
def feedRecords (rest : List (List Char)) : List (List String) :=
  (rest.filter (fun l => l ≠ [])).map
    (fun l => (splitOnChar ',' l).map (fun f => String.mk f))

/-- The parsed (header-stripped) row list of `LoadEpssData` before the
final slice (src lines 218–254): skip the first line (fatal when the
text has no newline), then read all CSV records into `epss_data` rows. -/
def parseEpssRows (text : String) : Except GoAbort (List epss_data) :=
  match splitOnChar '\n' text.data with
  | [_] => .error (.fatal "Error: Couldnt skip first line of EPSS data")
  | _ :: rest => readEpssRows none (feedRecords rest)
  | [] => .error (.fatal "unreachable")

/-- `LoadEpssData` (src lines 201–259): the parsed row list followed by
`epss_list = epss_list[2:]` (src line 256).  In Go, `s[2:]` aborts with
a slice-bounds panic whenever `len(s) < 2`. -/
def LoadEpssData (text : String) : Except GoAbort (List epss_data) :=
  match parseEpssRows text with
  | .error e => .error e
  | .ok l =>
    if l.length < 2 then .error (.panicked "slice bounds out of range")
    else .ok (l.drop 2)

/-! ## Payloads and Go maps

A record's `body` is a `map[string]interface{}`; the pipeline only ever
looks the two enrichment keys up or assigns them, so values are modelled
to the depth the pipeline inspects.  Go map assignment `m[k] = v`
replaces the value when the key is present and adds the key otherwise;
the association-list `mapSet` below has exactly that lookup behaviour. -/

/-- A JSON value stored in a record's payload, to the depth the
pipeline inspects it (it never reads payload values back). -/
inductive GoVal where
  | str (s : String)
  | num (d : Dec)
  | boolval (b : Bool)
  | null
deriving DecidableEq, Repr

/-- The full record object a finding carries (`map[string]interface{}`). -/
abbrev Payload := List (String × GoVal)

/-- Go map assignment `m[k] = v`: replace the binding when `k` is
present, append it otherwise. -/
def mapSet {β : Type} (m : List (String × β)) (k : String) (v : β) : List (String × β) :=
  match m with
  | [] => [(k, v)]
  | (k', v') :: rest => if k' = k then (k, v) :: rest else (k', v') :: mapSet rest k v

/-- Go map lookup `m[k]`. -/
def mapGet {β : Type} (m : List (String × β)) (k : String) : Option β :=
  match m with
  | [] => none
  | (k', v) :: rest => if k' = k then some v else mapGet rest k

/-! ## FindingExtractor: `CreateFindingsRaw` (src lines 54–94) -/

/-- One finding as the pipeline carries it (`finding_data` struct, src
lines 23–30).  `epss_score`/`epss_percentile` keep Go's zero value until
the join fills them. -/
structure finding_data where
  selector : Nat
  id : Int
  cve : String
  epss_score : Dec
  epss_percentile : Dec
  body : Payload
deriving DecidableEq, Repr

/-- One element of the listing's `results` array, to the depth the
extractor queries it through `jsonq`: the `id` field (`none` when absent
or non-numeric), the `vulnerability_id` string of each element of
`vulnerability_ids` (`none` when absent or not a string), and the full
record object retained as the payload. -/
structure RawRecord where
  id : Option Int
  vulnerability_ids : List (Option String)
  body : Payload
deriving DecidableEq, Repr

/-- The listing response: the declared `count` field (`none` when absent
or non-numeric) and the `results` array. -/
structure ListingResponse where
  count : Option Int
  results : List RawRecord
deriving DecidableEq, Repr

/-- `jq.String("results", i, "vulnerability_ids", j, "vulnerability_id")`
(src lines 66, 71): errors — hence `log.Fatal` — when the index is out
of bounds or the field is absent/not a string. -/
def getVulnId (r : RawRecord) (j : Nat) : Except GoAbort String :=
  match r.vulnerability_ids.get? j with
  | none => .error (.fatal "jsonq: index out of bounds")
  | some none => .error (.fatal "jsonq: expected string value for vulnerability_id")
  | some (some s) => .ok s

/-- The identifier extraction of one loop iteration (src lines 66–75):
position 0 of the identifier list, re-extracted from position 1 when the
position-0 string contains `"GHSA"`. -/
def extractCve (r : RawRecord) : Except GoAbort String :=
  match getVulnId r 0 with
  | .error e => .error e
  | .ok v0 => if containsGHSA v0 then getVulnId r 1 else .ok v0

/-- One iteration of the extraction loop at index `i` (src lines 66–90):
identifier (with alias re-extraction), then `id`, then the full record
object; any `jsonq` error is `log.Fatal`. -/
def buildFinding (results : List RawRecord) (i : Nat) : Except GoAbort finding_data :=
  match results.get? i with
  | none => .error (.fatal "jsonq: array index out of bounds")
  | some r =>
    match extractCve r with
    | .error e => .error e
    | .ok cve =>
      match r.id with
      | none => .error (.fatal "jsonq: expected int value for id")
      | some v =>
        .ok { selector := i, id := v, cve := cve,
              epss_score := { mant := 0, exp := 0 },
              epss_percentile := { mant := 0, exp := 0 }, body := r.body }

/-- The extraction loop over a list of indices; an error on any record
aborts the whole batch (src `log.Fatal` calls), no partial result. -/
def goFindings (results : List RawRecord) : List Nat → Except GoAbort (List finding_data)
  | [] => .ok []
  | i :: is =>
    match buildFinding results i with
    | .error e => .error e
    | .ok f =>
      match goFindings results is with
      | .error e => .error e
      | .ok fs => .ok (f :: fs)

/-- `CreateFindingsRaw` (src lines 54–94): read `count` (fatal when
unusable), then loop `for i := 1; i < count; i++` over the `results`
array — index 0 is never visited. -/
def CreateFindingsRaw (resp : ListingResponse) : Except GoAbort (List finding_data) :=
  match resp.count with
  | none => .error (.fatal "jsonq: expected int value for count")
  | some n => goFindings resp.results (List.range' 1 (n - 1).toNat)

/-! ## EnrichmentJoiner: `EnrichFindingData` (src lines 265–284) -/

/-- Zero-padding of the fractional digits to width 5. -/
def pad5 (s : String) : String :=
  String.mk (List.replicate (5 - s.length) '0' ++ s.data)

/-- `round(a / 10^e * 100000)` on magnitudes, as a natural number
(round half up; the feed's 5-decimal fields never produce ties). -/
def round5mag (a : Nat) (e : Nat) : Nat :=
  (a * 100000 * 2 + 10 ^ e) / (2 * 10 ^ e)

/-- `fmt.Sprintf("%.5f", x)` (src lines 280–281) on an exact decimal:
the value rounded to 5 decimal places and printed with exactly 5
fractional digits. -/
def fmt5 (d : Dec) : String :=
  let r := round5mag d.mant.natAbs d.exp
  (if d.mant < 0 then "-" else "") ++ toString (r / 100000) ++ "." ++ pad5 (toString (r % 100000))

/-- The lookup map built at the top of `EnrichFindingData` (src lines
267–270): Go map inserts in feed order, so a later row with the same
identifier overwrites an earlier one. -/
def buildEpssMap (l : List epss_data) : List (String × epss_data) :=
  l.foldl (fun m e => mapSet m e.cve e) []

/-- The per-finding update of the join loop (src lines 273–283): when
the finding's CVE is in the map, set the two score fields and assign the
two formatted payload entries; otherwise leave the finding as is. -/
def enrichFinding (epssMap : List (String × epss_data)) (f : finding_data) : finding_data :=
  match mapGet epssMap f.cve with
  | some e =>
    { f with
      epss_score := e.score
      epss_percentile := e.percentile
      body := mapSet (mapSet f.body "epss_score" (.str (fmt5 e.score)))
                "epss_percentile" (.str (fmt5 e.percentile)) }
  | none => f

/-- `EnrichFindingData` (src lines 265–284): build the map, then update
every finding in place. -/
def EnrichFindingData (epssList : List epss_data) (findingsList : List finding_data) :
    List finding_data :=
  findingsList.map (enrichFinding (buildEpssMap epssList))

/-! ## CLI flags (src lines 39–43, 330–333) and outgoing requests -/

/-- The configuration struct (`flags`, src lines 39–43). -/
structure flags where
  authToken : String
  ip : String
  port : Int
deriving DecidableEq, Repr

/-- A registered flag's backing cell, as the Go `flag` package keeps
it: `flag.String`/`flag.Int` allocate the cell initialized to the
default and return a pointer to it; only `flag.Parse` would copy values
from the command line into the cells. -/
structure FlagVar (α : Type) where
  value : α
deriving DecidableEq, Repr

/-- `flag.String(name, default, usage)`: a fresh cell holding the
default. -/
def flagStringVar (d : String) : FlagVar String := { value := d }

/-- `flag.Int(name, default, usage)`: a fresh cell holding the
default. -/
def flagIntVar (d : Int) : FlagVar Int := { value := d }

/-- Dereference of the returned pointer. -/
def derefFlag {α : Type} (v : FlagVar α) : α := v.value

/-- `main`'s flag setup (src lines 330–333): each `flag.String`/
`flag.Int` pointer is dereferenced immediately after registration, and
`flag.Parse` is never invoked anywhere in the program, so the command
line `argv` is never consulted and every cell still holds its default
at the moment it is read. -/
def mainFlags (_argv : List String) : flags :=
  { authToken := derefFlag (flagStringVar "")
    ip := derefFlag (flagStringVar "localhost")
    port := derefFlag (flagIntVar 8080) }

/-- The listing request `FetchFindings` sends (src lines 100–108): the
URL built from the flags and the `Authorization` header carrying the
token. -/
structure GetRequest where
  url : String
  auth : String
deriving DecidableEq, Repr

/-- The request of `FetchFindings` (src lines 100–108). -/
def fetchFindingsRequest (fl : flags) : GetRequest :=
  { url := "http://" ++ fl.ip ++ ":" ++ toString fl.port ++
      "/api/v2/findings/?active=true&limit=99999999"
    auth := fl.authToken }

/-! ## UpdateDispatcher: `PatchFindingData` (src lines 291–327) -/

/-- The update request for one finding (src lines 293–310): PUT to the
per-record endpoint, the token in `Authorization`, JSON content type,
and the finding's full payload as the body. -/
structure PutRequest where
  url : String
  auth : String
  accept : String
  contentType : String
  payload : Payload
deriving DecidableEq, Repr

/-- What the loop reports for one finding (src lines 319–325): a
non-200 status is printed with the status code, a 200 with the
finding's id. -/
inductive PatchOutcome where
  | updated (id : Int)
  | rejected (status : Nat)
deriving DecidableEq, Repr

/-- The request built for one finding (src lines 293–310). -/
def putRequestFor (fl : flags) (f : finding_data) : PutRequest :=
  { url := "http://" ++ fl.ip ++ ":" ++ toString fl.port ++ "/api/v2/findings/" ++ toString f.id
    auth := fl.authToken
    accept := "application/json"
    contentType := "application/json"
    payload := f.body }

/-- The report for one finding given the response status (src lines
319–325). -/
def patchOutcome (f : finding_data) (status : Nat) : PatchOutcome :=
  if status ≠ 200 then .rejected status else .updated f.id

/-- `PatchFindingData` (src lines 291–327): one request per finding, in
input order; the response status only selects what is printed, and the
loop body has no early exit, so the iteration always proceeds to the
next finding.  The remote service is modelled by `respond`, the status
each finding's update call returns. -/
def PatchFindingData (findings : List finding_data) (fl : flags)
    (respond : finding_data → Nat) : List (PutRequest × PatchOutcome) :=
  match findings with
  | [] => []
  | f :: rest =>
    (putRequestFor fl f, patchOutcome f (respond f)) :: PatchFindingData rest fl respond

/-! ## Concrete sample inputs used by the witnesses -/

/-- A well-formed feed: metadata line plus three data rows. -/
def sampleFeed : String := "#m\nA,0.1,0.2\nB,0.3,0.4\nC,0.5,0.6\n"

/-- What `LoadEpssData` returns on `sampleFeed`. -/
def sampleLoaded : List epss_data :=
  [{ cve := "C", score := { mant := 5, exp := 1 }, percentile := { mant := 6, exp := 1 } }]

/-- A feed whose metadata line is followed by a single data row. -/
def shortFeed : String := "#m\nA,0.1,0.2\n"

/-- The single parsed row of `shortFeed`. -/
def shortFeedRows : List epss_data :=
  [{ cve := "A", score := { mant := 1, exp := 1 }, percentile := { mant := 2, exp := 1 } }]

/-- A feed holding only the metadata line and the column-header line. -/
def headerOnlyFeed : String := "#meta\ncve,epss,percentile\n"

/-- A feed with two framing rows and a duplicated identifier `D`. -/
def dupFeed : String := "#m\nX,0.1,0.1\nY,0.2,0.2\nD,0.3,0.3\nD,0.5,0.6\n"

/-- The parsed (header-stripped) rows of `dupFeed`. -/
def dupFeedRows : List epss_data :=
  [{ cve := "X", score := { mant := 1, exp := 1 }, percentile := { mant := 1, exp := 1 } },
   { cve := "Y", score := { mant := 2, exp := 1 }, percentile := { mant := 2, exp := 1 } },
   { cve := "D", score := { mant := 3, exp := 1 }, percentile := { mant := 3, exp := 1 } },
   { cve := "D", score := { mant := 5, exp := 1 }, percentile := { mant := 6, exp := 1 } }]

/-- A listing response with `count = 2` whose single processed record
carries an empty `vulnerability_id` string at position 0. -/
def emptyIdListing : ListingResponse :=
  { count := some 2
    results := [{ id := some 1, vulnerability_ids := [], body := [] },
                { id := some 10, vulnerability_ids := [some ""], body := [] }] }

/-- The summary `CreateFindingsRaw` produces on `emptyIdListing`. -/
def emptyIdFinding : finding_data :=
  { selector := 1, id := 10, cve := "", epss_score := { mant := 0, exp := 0 },
    epss_percentile := { mant := 0, exp := 0 }, body := [] }

/-- A listing response with `count = 3`: the placeholder at index 0, a
plain CVE record, and a GHSA-alias record. -/
def sampleListing : ListingResponse :=
  { count := some 3
    results :=
      [{ id := some 1, vulnerability_ids := [], body := [] },
       { id := some 10, vulnerability_ids := [some "CVE-2024-0001"],
         body := [("severity", .str "High")] },
       { id := some 11, vulnerability_ids := [some "GHSA-xxxx", some "CVE-2024-0002"],
         body := [] }] }

/-- What `CreateFindingsRaw` produces on `sampleListing`. -/
def sampleFindings : List finding_data :=
  [{ selector := 1, id := 10, cve := "CVE-2024-0001", epss_score := { mant := 0, exp := 0 },
     epss_percentile := { mant := 0, exp := 0 }, body := [("severity", .str "High")] },
   { selector := 2, id := 11, cve := "CVE-2024-0002", epss_score := { mant := 0, exp := 0 },
     epss_percentile := { mant := 0, exp := 0 }, body := [] }]

/-- A record whose first identifier is a plain CVE string. -/
def plainRecord : RawRecord :=
  { id := some 10, vulnerability_ids := [some "CVE-2024-0001"], body := [] }

/-- A record whose first identifier is a GHSA advisory alias and whose
second is the CVE string. -/
def aliasRecord : RawRecord :=
  { id := some 11, vulnerability_ids := [some "GHSA-xxxx", some "CVE-2024-0002"], body := [] }

/-- A feed entry matching `matchedFinding`. -/
def sampleEntry : epss_data :=
  { cve := "CVE-2024-0001", score := { mant := 12345, exp := 5 },
    percentile := { mant := 6789, exp := 4 } }

/-- A finding whose CVE is a key of the sample score map. -/
def matchedFinding : finding_data :=
  { selector := 1, id := 10, cve := "CVE-2024-0001", epss_score := { mant := 0, exp := 0 },
    epss_percentile := { mant := 0, exp := 0 }, body := [("severity", .str "High")] }

/-- A finding whose CVE is absent from the sample score map. -/
def unmatchedFinding : finding_data :=
  { selector := 2, id := 11, cve := "CVE-2024-0002", epss_score := { mant := 0, exp := 0 },
    epss_percentile := { mant := 0, exp := 0 }, body := [("severity", .str "Low")] }

/-- Flags for the dispatcher witness. -/
def patchFlags : flags := { authToken := "Token abc", ip := "localhost", port := 8080 }

/-- Three findings for the dispatcher witness. -/
def pf1 : finding_data :=
  { selector := 1, id := 1, cve := "CVE-1", epss_score := { mant := 0, exp := 0 },
    epss_percentile := { mant := 0, exp := 0 }, body := [] }

def pf2 : finding_data :=
  { selector := 2, id := 2, cve := "CVE-2", epss_score := { mant := 0, exp := 0 },
    epss_percentile := { mant := 0, exp := 0 }, body := [] }

def pf3 : finding_data :=
  { selector := 3, id := 3, cve := "CVE-3", epss_score := { mant := 0, exp := 0 },
    epss_percentile := { mant := 0, exp := 0 }, body := [] }

/-- A remote service that rejects exactly the second finding's update. -/
def patchRespond (f : finding_data) : Nat := if f.id = 2 then 500 else 200

/-! ## Lemmas about Go map assignment and lookup -/

theorem mapGet_mapSet {β : Type} (m : List (String × β)) (k k' : String) (v : β) :
    mapGet (mapSet m k v) k' = if k = k' then some v else mapGet m k' := by
  induction m with
  | nil =>
    simp only [mapSet, mapGet]
  | cons hd tl ih =>
    obtain ⟨k₀, v₀⟩ := hd
    by_cases h : k₀ = k
    · subst h
      simp only [mapSet, eq_self_iff_true, if_true, mapGet]
      by_cases h2 : k₀ = k' <;> simp [h2]
    · simp only [mapSet, if_neg h, mapGet, ih]
      by_cases h1 : k₀ = k' <;> by_cases h2 : k = k' <;> simp_all

theorem mapSet_mapSet_same {β : Type} (m : List (String × β)) (k : String) (v w : β) :
    mapSet (mapSet m k v) k w = mapSet m k w := by
  induction m with
  | nil => simp [mapSet]
  | cons hd tl ih =>
    obtain ⟨k₀, v₀⟩ := hd
    by_cases h : k₀ = k
    · subst h
      simp [mapSet]
    · simp [mapSet, h, ih]

/-- Re-assigning the first-inserted key leaves the insertion order
alone, because `s` is already present when the re-assignment runs: the
fresh-key append happens only once. -/
theorem mapSet_left_overwrite {β : Type} (m : List (String × β)) (s p : String)
    (v1 v2 v1' : β) (h : s ≠ p) :
    mapSet (mapSet (mapSet m s v1) p v2) s v1' = mapSet (mapSet m s v1') p v2 := by
  induction m with
  | nil => simp [mapSet, h, Ne.symm h]
  | cons hd tl ih =>
    obtain ⟨k₀, v₀⟩ := hd
    by_cases h0 : k₀ = s
    · subst h0
      simp [mapSet, h, Ne.symm h]
    · by_cases h1 : k₀ = p
      · subst h1
        simp [mapSet, h0, fun hh : k₀ = s => h0 hh, mapSet_mapSet_same]
      · simp [mapSet, h0, h1, ih]

theorem mem_keys_mapSet {β : Type} (m : List (String × β)) (k a : String) (v : β) :
    a ∈ (mapSet m k v).map Prod.fst ↔ a ∈ m.map Prod.fst ∨ a = k := by
  induction m with
  | nil => simp [mapSet]
  | cons hd tl ih =>
    obtain ⟨k₀, v₀⟩ := hd
    by_cases h : k₀ = k
    · subst h
      simp only [mapSet, eq_self_iff_true, if_true, List.map_cons, List.mem_cons]
      tauto
    · simp only [mapSet, if_neg h, List.map_cons, List.mem_cons, ih]
      tauto

theorem nodup_keys_mapSet {β : Type} (m : List (String × β)) (k : String) (v : β)
    (hm : (m.map Prod.fst).Nodup) : ((mapSet m k v).map Prod.fst).Nodup := by
  induction m with
  | nil => simp [mapSet]
  | cons hd tl ih =>
    obtain ⟨k₀, v₀⟩ := hd
    simp only [List.map_cons, List.nodup_cons] at hm
    by_cases h : k₀ = k
    · subst h
      simp only [mapSet, eq_self_iff_true, if_true, List.map_cons, List.nodup_cons]
      exact ⟨hm.1, hm.2⟩
    · simp only [mapSet, if_neg h, List.map_cons, List.nodup_cons]
      refine ⟨?_, ih hm.2⟩
      intro hmem
      rcases (mem_keys_mapSet tl k k₀ v).mp hmem with hm0 | h0
      · exact hm.1 hm0
      · exact h h0

theorem find?_append_or {α : Type} (p : α → Bool) (l₁ l₂ : List α) :
    (l₁ ++ l₂).find? p = (l₁.find? p).or (l₂.find? p) := by
  induction l₁ with
  | nil => simp
  | cons hd tl ih =>
    by_cases h : p hd
    · simp [List.find?_cons, h]
    · simp [List.find?_cons, h, ih]

theorem optionOr_assoc {α : Type} (a b c : Option α) :
    (a.or b).or c = a.or (b.or c) := by
  cases a <;> rfl

/-- The value a Go-map fold leaves for `k` is the last inserted one:
folding `mapSet` over the rows realises last-row-wins. -/
theorem mapGet_foldSet (l : List epss_data) (m : List (String × epss_data)) (k : String) :
    mapGet (l.foldl (fun acc e => mapSet acc e.cve e) m) k =
      (l.reverse.find? (fun e => e.cve == k)).or (mapGet m k) := by
  induction l generalizing m with
  | nil => simp
  | cons hd tl ih =>
    simp only [List.foldl_cons, List.reverse_cons, find?_append_or, ih, optionOr_assoc]
    congr 1
    by_cases h : hd.cve = k
    · simp [List.find?_cons, h, mapGet_mapSet]
    · simp [List.find?_cons, h, mapGet_mapSet]

theorem mapGet_buildEpssMap (l : List epss_data) (k : String) :
    mapGet (buildEpssMap l) k = l.reverse.find? (fun e => e.cve == k) := by
  unfold buildEpssMap
  rw [mapGet_foldSet]
  simp [mapGet]

theorem nodup_keys_foldSet (l : List epss_data) (m : List (String × epss_data))
    (hm : (m.map Prod.fst).Nodup) :
    (((l.foldl (fun acc e => mapSet acc e.cve e) m)).map Prod.fst).Nodup := by
  induction l generalizing m with
  | nil => exact hm
  | cons hd tl ih => exact ih _ (nodup_keys_mapSet m hd.cve hd hm)

theorem nodup_keys_buildEpssMap (l : List epss_data) :
    ((buildEpssMap l).map Prod.fst).Nodup :=
  nodup_keys_foldSet l [] (by simp)

/-! ## Lemmas about the extraction loop -/

theorem buildFinding_ok (results : List RawRecord) (i : Nat) (f : finding_data)
    (h : buildFinding results i = .ok f) :
    ∃ r, results.get? i = some r ∧ extractCve r = .ok f.cve ∧ r.id = some f.id ∧
      f.body = r.body ∧ f.selector = i := by
  unfold buildFinding at h
  split at h
  · exact absurd h (by simp)
  · rename_i r hr
    split at h
    · exact absurd h (by simp)
    · rename_i cve hc
      split at h
      · exact absurd h (by simp)
      · rename_i v hid
        have hf := Except.ok.inj h
        subst hf
        exact ⟨r, hr, hc, hid, rfl, rfl⟩

theorem goFindings_ok (results : List RawRecord) :
    ∀ (idxs : List Nat) (fs : List finding_data), goFindings results idxs = .ok fs →
      fs.length = idxs.length ∧
      ∀ j, j < idxs.length → ∃ i f, idxs.get? j = some i ∧ fs.get? j = some f ∧
        buildFinding results i = .ok f := by
  intro idxs
  induction idxs with
  | nil =>
    intro fs h
    unfold goFindings at h
    have hf := Except.ok.inj h
    subst hf
    refine ⟨rfl, ?_⟩
    intro j hj
    exact absurd hj (by simp)
  | cons i rest ih =>
    intro fs h
    unfold goFindings at h
    split at h
    · exact absurd h (by simp)
    · rename_i f hb
      split at h
      · exact absurd h (by simp)
      · rename_i gs hg
        have hf := Except.ok.inj h
        subst hf
        obtain ⟨hlen, hall⟩ := ih gs hg
        refine ⟨by simp [hlen], ?_⟩
        intro j hj
        cases j with
        | zero => exact ⟨i, f, rfl, rfl, hb⟩
        | succ j =>
          obtain ⟨i', f', h1, h2, h3⟩ := hall j (by simpa using hj)
          exact ⟨i', f', h1, h2, h3⟩

theorem get?_range' (s n : Nat) :
    ∀ i, (List.range' s n).get? i = if i < n then some (s + i) else none := by
  induction n generalizing s with
  | zero => intro i; simp [List.range']
  | succ n ih =>
    intro i
    cases i with
    | zero => simp [List.range']
    | succ i =>
      simp only [List.range', List.get?_cons_succ]
      rw [ih (s + 1) i]
      by_cases h : i < n
      · rw [if_pos h, if_pos (by omega)]
        congr 1
        omega
      · rw [if_neg h, if_neg (by omega)]

/-! ## Lemmas about the join -/

theorem enrichFinding_matched (M : List (String × epss_data)) (f : finding_data)
    (e : epss_data) (he : mapGet M f.cve = some e) :
    enrichFinding M f =
      { f with
        epss_score := e.score
        epss_percentile := e.percentile
        body := mapSet (mapSet f.body "epss_score" (.str (fmt5 e.score)))
                  "epss_percentile" (.str (fmt5 e.percentile)) } := by
  unfold enrichFinding
  rw [he]

theorem enrichFinding_unmatched (M : List (String × epss_data)) (f : finding_data)
    (he : mapGet M f.cve = none) : enrichFinding M f = f := by
  unfold enrichFinding
  rw [he]

theorem enrichFinding_idem (M : List (String × epss_data)) (f : finding_data) :
    enrichFinding M (enrichFinding M f) = enrichFinding M f := by
  cases he : mapGet M f.cve with
  | none => rw [enrichFinding_unmatched M f he, enrichFinding_unmatched M f he]
  | some e =>
    have h1 := enrichFinding_matched M f e he
    have he2 : mapGet M (enrichFinding M f).cve = some e := by rw [h1]; exact he
    rw [enrichFinding_matched M (enrichFinding M f) e he2, h1]
    dsimp only
    rw [mapSet_left_overwrite f.body "epss_score" "epss_percentile" _ _ _ (by decide),
      mapSet_mapSet_same]

/-! ## Shared inversion lemma for `LoadEpssData` -/

/-- Inversion of a successful `LoadEpssData` run: parsing succeeded, at
least two rows were parsed, and the result is the row list without its
first two entries. -/
theorem LoadEpssData_ok_inv (text : String) (l : List epss_data)
    (hl : LoadEpssData text = .ok l) :
    ∃ rows, parseEpssRows text = .ok rows ∧ 2 ≤ rows.length ∧ l = rows.drop 2 := by
  unfold LoadEpssData at hl
  split at hl
  · exact absurd hl (by simp)
  · rename_i rows hp
    split at hl
    · exact absurd hl (by simp)
    · rename_i hge
      exact ⟨rows, hp, by omega, (Except.ok.inj hl).symm⟩

/-! ## Claim theorems -/

/-- C1: for every feed text `LoadEpssData` accepts, the returned list
equals the parsed (header-stripped) row list minus its first two
entries — exactly the first two parsed entries are discarded. -/
theorem LoadEpssData_returns_drop_two (text : String) (l : List epss_data)
    (hl : LoadEpssData text = .ok l) :
    ∃ rows, parseEpssRows text = .ok rows ∧ l = rows.drop 2 := by
  obtain ⟨rows, h1, _, h3⟩ := LoadEpssData_ok_inv text l hl
  exact ⟨rows, h1, h3⟩

/-- C1 witness: on a feed with three data rows, `LoadEpssData` returns
the parsed rows minus the first two. -/
theorem LoadEpssData_returns_drop_two_witness :
    ∃ rows, parseEpssRows sampleFeed = .ok rows ∧ sampleLoaded = rows.drop 2 :=
  LoadEpssData_returns_drop_two sampleFeed sampleLoaded (by decide)

/-- C2 counterexample: on `emptyIdListing` the extractor succeeds and
yields a summary whose `cveReference` is the empty string — the run
neither fails with `MissingIdentifier` nor guarantees non-emptiness. -/
theorem CreateFindingsRaw_empty_cve :
    CreateFindingsRaw emptyIdListing = .ok [emptyIdFinding] ∧
    emptyIdFinding.cve = "" := by
  exact ⟨by decide, by decide⟩

/-- C2 (amended): for every listing response with declared count `n`
on which `CreateFindingsRaw` succeeds, the result has `max (n-1) 0`
summaries, skipping index 0 and covering indices 1 through `n-1` in
order, and each summary's `cveReference` is the string the alias rule
extracts — possibly empty, since emptiness is never checked; the run
fails only when a needed list position or field is unusable. -/
theorem CreateFindingsRaw_shape (resp : ListingResponse) (n : Int) (l : List finding_data)
    (hc : resp.count = some n) (hk : CreateFindingsRaw resp = .ok l) :
    l.length = (n - 1).toNat ∧
    ∀ j, j < l.length → ∃ f r, l.get? j = some f ∧
      resp.results.get? (j + 1) = some r ∧ f.selector = j + 1 ∧
      extractCve r = .ok f.cve ∧ r.id = some f.id ∧ f.body = r.body := by
  have hk' : goFindings resp.results (List.range' 1 (n - 1).toNat) = .ok l := by
    rw [← hk]
    unfold CreateFindingsRaw
    rw [hc]
  obtain ⟨hlen, hall⟩ := goFindings_ok resp.results _ l hk'
  have hlr : (List.range' 1 (n - 1).toNat).length = (n - 1).toNat := by simp
  refine ⟨by rw [hlen, hlr], ?_⟩
  intro j hj
  have hj' : j < (List.range' 1 (n - 1).toNat).length := by
    rw [hlen] at hj
    exact hj
  obtain ⟨i, f, h1, h2, h3⟩ := hall j hj'
  rw [get?_range' 1 ((n - 1).toNat) j, if_pos (by rw [hlr] at hj'; exact hj')] at h1
  have hi : i = 1 + j := (Option.some.inj h1).symm
  subst hi
  have hcomm : 1 + j = j + 1 := Nat.add_comm 1 j
  rw [hcomm] at h3
  obtain ⟨r, hr, hcve, hid, hbody, hsel⟩ := buildFinding_ok resp.results (j + 1) f h3
  exact ⟨f, r, h2, hr, hsel, hcve, hid, hbody⟩

/-- C2 witness: on `sampleListing` (count 3) the second summary covers
the record at index 2, in order, with the alias-resolved identifier. -/
theorem CreateFindingsRaw_shape_witness :
    ∃ f r, sampleFindings.get? 1 = some f ∧ sampleListing.results.get? 2 = some r ∧
      f.selector = 2 ∧ extractCve r = .ok f.cve ∧ r.id = some f.id ∧ f.body = r.body :=
  (CreateFindingsRaw_shape sampleListing 3 sampleFindings (by decide) (by decide)).2 1 (by decide)

/-- C3 (code bug): `main` never calls `flag.Parse` and dereferences the
flag pointers at registration time, so the configuration attached to
outgoing requests is always the defaults — a token, host or port
supplied on the command line is never the one used. -/
theorem mainFlags_never_reads_cli :
    (∀ argv : List String, mainFlags argv =
      { authToken := "", ip := "localhost", port := 8080 }) ∧
    (mainFlags ["-t", "SECRET", "-u", "example.com", "-p", "9000"]).authToken ≠ "SECRET" ∧
    fetchFindingsRequest (mainFlags ["-t", "SECRET", "-u", "example.com", "-p", "9000"]) =
      { url := "http://localhost:8080/api/v2/findings/?active=true&limit=99999999",
        auth := "" } := by
  refine ⟨fun argv => rfl, by decide, by decide⟩

/-- C4: the alias rule of the extractor — when the position-0
identifier does not match the advisory-alias pattern it becomes the
`cveReference`; when it does, the position-1 identifier is taken
instead. -/
theorem extractCve_alias_rule (r : RawRecord) (v0 : String)
    (h0 : r.vulnerability_ids.get? 0 = some (some v0)) :
    (containsGHSA v0 = false → extractCve r = .ok v0) ∧
    ∀ v1, r.vulnerability_ids.get? 1 = some (some v1) → containsGHSA v0 = true →
      extractCve r = .ok v1 := by
  have hg0 : getVulnId r 0 = .ok v0 := by
    unfold getVulnId
    rw [h0]
  constructor
  · intro hn
    simp [extractCve, hg0, hn]
  · intro v1 h1 hy
    have hg1 : getVulnId r 1 = .ok v1 := by
      unfold getVulnId
      rw [h1]
    simp [extractCve, hg0, hg1, hy]

/-- C4 witness: a plain CVE record keeps its first identifier; a
GHSA-alias record takes the second. -/
theorem extractCve_alias_rule_witness :
    extractCve plainRecord = .ok "CVE-2024-0001" ∧
    extractCve aliasRecord = .ok "CVE-2024-0002" :=
  ⟨(extractCve_alias_rule plainRecord "CVE-2024-0001" (by decide)).1 (by decide),
   (extractCve_alias_rule aliasRecord "GHSA-xxxx" (by decide)).2 "CVE-2024-0002"
     (by decide) (by decide)⟩

/-- C5: a finding whose CVE is a key of the score map gets its score
and percentile from the matching entry, and its payload maps the two
keys `epss_score`/`epss_percentile` to the fixed-5-decimal renderings
of that entry, all other payload keys unchanged. -/
theorem EnrichFindingData_matched (epssList : List epss_data)
    (findingsList : List finding_data) (i : Nat) (f : finding_data) (e : epss_data)
    (hf : findingsList.get? i = some f)
    (he : mapGet (buildEpssMap epssList) f.cve = some e) :
    ∃ g, (EnrichFindingData epssList findingsList).get? i = some g ∧
      g.epss_score = e.score ∧ g.epss_percentile = e.percentile ∧
      mapGet g.body "epss_score" = some (.str (fmt5 e.score)) ∧
      mapGet g.body "epss_percentile" = some (.str (fmt5 e.percentile)) ∧
      ∀ k, k ≠ "epss_score" → k ≠ "epss_percentile" →
        mapGet g.body k = mapGet f.body k := by
  have hg : (EnrichFindingData epssList findingsList).get? i =
      some (enrichFinding (buildEpssMap epssList) f) := by
    unfold EnrichFindingData
    rw [List.get?_map, hf]
    rfl
  have h1 := enrichFinding_matched (buildEpssMap epssList) f e he
  refine ⟨enrichFinding (buildEpssMap epssList) f, hg, by rw [h1], by rw [h1], ?_, ?_, ?_⟩
  · rw [h1]
    dsimp only
    rw [mapGet_mapSet, if_neg (by decide), mapGet_mapSet, if_pos rfl]
  · rw [h1]
    dsimp only
    rw [mapGet_mapSet, if_pos rfl]
  · intro k hk1 hk2
    rw [h1]
    dsimp only
    rw [mapGet_mapSet, if_neg (fun hh => hk2 hh.symm),
      mapGet_mapSet, if_neg (fun hh => hk1 hh.symm)]

/-- C5 witness: the matched sample finding is enriched with the
formatted sample entry. -/
theorem EnrichFindingData_matched_witness :
    ∃ g, (EnrichFindingData [sampleEntry] [matchedFinding, unmatchedFinding]).get? 0 =
        some g ∧
      g.epss_score = sampleEntry.score ∧ g.epss_percentile = sampleEntry.percentile ∧
      mapGet g.body "epss_score" = some (.str (fmt5 sampleEntry.score)) ∧
      mapGet g.body "epss_percentile" = some (.str (fmt5 sampleEntry.percentile)) ∧
      ∀ k, k ≠ "epss_score" → k ≠ "epss_percentile" →
        mapGet g.body k = mapGet matchedFinding.body k :=
  EnrichFindingData_matched [sampleEntry] [matchedFinding, unmatchedFinding] 0
    matchedFinding sampleEntry (by decide) (by decide)

/-- C6: a finding whose CVE is not a key of the score map is left
entirely unchanged and still appears, at its position, in the output
sequence. -/
theorem EnrichFindingData_unmatched (epssList : List epss_data)
    (findingsList : List finding_data) (i : Nat) (f : finding_data)
    (hf : findingsList.get? i = some f)
    (he : mapGet (buildEpssMap epssList) f.cve = none) :
    (EnrichFindingData epssList findingsList).length = findingsList.length ∧
    (EnrichFindingData epssList findingsList).get? i = some f := by
  constructor
  · unfold EnrichFindingData
    exact List.length_map _ _
  · unfold EnrichFindingData
    rw [List.get?_map, hf]
    simp [enrichFinding_unmatched _ _ he]

/-- C6 witness: the unmatched sample finding passes through unchanged
at its position. -/
theorem EnrichFindingData_unmatched_witness :
    (EnrichFindingData [sampleEntry] [matchedFinding, unmatchedFinding]).length = 2 ∧
    (EnrichFindingData [sampleEntry] [matchedFinding, unmatchedFinding]).get? 1 =
      some unmatchedFinding :=
  EnrichFindingData_unmatched [sampleEntry] [matchedFinding, unmatchedFinding] 1
    unmatchedFinding (by decide) (by decide)

/-- C7: the dispatcher issues exactly one update per record, in input
order, and a record's report depends only on that record's own response
status — a non-success status is reported as rejected and never stops
later records from being dispatched. -/
theorem PatchFindingData_dispatches_each (findings : List finding_data) (fl : flags)
    (respond : finding_data → Nat) :
    (PatchFindingData findings fl respond).length = findings.length ∧
    ∀ i f, findings.get? i = some f →
      (PatchFindingData findings fl respond).get? i =
        some (putRequestFor fl f, patchOutcome f (respond f)) := by
  induction findings with
  | nil =>
    refine ⟨rfl, ?_⟩
    intro i f h
    exact absurd h (by simp)
  | cons hd tl ih =>
    refine ⟨?_, ?_⟩
    · simp only [PatchFindingData, List.length_cons, ih.1]
    · intro i f h
      cases i with
      | zero =>
        have hf := Option.some.inj h
        subst hf
        rfl
      | succ i =>
        have h' : tl.get? i = some f := h
        exact ih.2 i f h'

/-- C7 witness: with the second of three updates rejected (status 500),
the third record is still dispatched with its own outcome. -/
theorem PatchFindingData_dispatches_each_witness :
    (PatchFindingData [pf1, pf2, pf3] patchFlags patchRespond).get? 2 =
      some (putRequestFor patchFlags pf3, patchOutcome pf3 (patchRespond pf3)) :=
  (PatchFindingData_dispatches_each [pf1, pf2, pf3] patchFlags patchRespond).2 2 pf3
    (by decide)

/-- C8: the join's lookup map has no duplicate keys, and every key's
entry is the one from the last row with that identifier in the parsed
(header-stripped) row list — later duplicates overwrite earlier ones. -/
theorem epssMap_last_row_wins (text : String) (rows l : List epss_data)
    (hp : parseEpssRows text = .ok rows) (hl : LoadEpssData text = .ok l) :
    ((buildEpssMap l).map Prod.fst).Nodup ∧
    ∀ k e, mapGet (buildEpssMap l) k = some e →
      rows.reverse.find? (fun r => r.cve == k) = some e := by
  obtain ⟨rows', hp', _, hdrop⟩ := LoadEpssData_ok_inv text l hl
  rw [hp] at hp'
  refine ⟨nodup_keys_buildEpssMap l, ?_⟩
  intro k e hk
  rw [mapGet_buildEpssMap, hdrop] at hk
  rw [show rows = rows' from Except.ok.inj hp']
  have hsplit : rows'.reverse = (rows'.drop 2).reverse ++ (rows'.take 2).reverse := by
    conv_lhs => rw [← List.take_append_drop 2 rows']
    rw [List.reverse_append]
  rw [hsplit, find?_append_or, hk]
  rfl

/-- C8 witness: in `dupFeed`, identifier `D` appears twice and the map
holds the later row's values, which is also the last `D` row of the
parsed row list. -/
theorem epssMap_last_row_wins_witness :
    dupFeedRows.reverse.find? (fun r => r.cve == "D") =
      some { cve := "D", score := { mant := 5, exp := 1 },
             percentile := { mant := 6, exp := 1 } } :=
  (epssMap_last_row_wins dupFeed dupFeedRows (dupFeedRows.drop 2) (by decide)
      (by decide)).2 "D"
    { cve := "D", score := { mant := 5, exp := 1 }, percentile := { mant := 6, exp := 1 } }
    (by decide)

/-- C9: the join is idempotent — applying it a second time to its own
output changes nothing, so the enriched payload fields are identical
both times. -/
theorem EnrichFindingData_idempotent (epssList : List epss_data)
    (findingsList : List finding_data) :
    EnrichFindingData epssList (EnrichFindingData epssList findingsList) =
      EnrichFindingData epssList findingsList := by
  unfold EnrichFindingData
  rw [List.map_map]
  induction findingsList with
  | nil => rfl
  | cons hd tl ih =>
    simp only [List.map_cons, Function.comp_apply, enrichFinding_idem]
    rw [ih]

/-- C10 counterexample to the claim's example: a feed holding only the
metadata and column-header lines never reaches the drop-two slice —
float-parsing the header row's non-numeric fields is a fatal error
(`log.Fatal`), so no parsed row list exists and the abort is not a
panic. -/
theorem LoadEpssData_header_only_fatal :
    parseEpssRows headerOnlyFeed = .error (.fatal "ParseFloat") ∧
    LoadEpssData headerOnlyFeed = .error (.fatal "ParseFloat") ∧
    LoadEpssData headerOnlyFeed ≠ .error (.panicked "slice bounds out of range") := by
  exact ⟨by decide, by decide, by decide⟩

/-- C10 (amended): whenever the header-stripped text parses to fewer
than two rows, the final drop-two step slices out of range and the run
aborts with a panic instead of returning or raising the feed error. -/
theorem LoadEpssData_short_rows_panic (text : String) (rows : List epss_data)
    (hp : parseEpssRows text = .ok rows) (hshort : rows.length < 2) :
    LoadEpssData text = .error (.panicked "slice bounds out of range") := by
  unfold LoadEpssData
  simp only [hp]
  rw [if_pos hshort]

/-- C10 witness: a metadata line plus one data row parses to a single
row and the drop-two slice panics. -/
theorem LoadEpssData_short_rows_panic_witness :
    LoadEpssData shortFeed = .error (.panicked "slice bounds out of range") :=
  LoadEpssData_short_rows_panic shortFeed shortFeedRows (by decide) (by decide)
